import Mathlib

/-! gce-sleep: rule compilation, instance grouping and reconciliation.

A shallow embedding of `cmd/root.go`: `newRuleset`, the instance grouping loop and the
reconciliation loop of `RootCmd.Run`, and `shouldBeRunning`.

Library values are modelled by what the program observes of them:

* a `time.Time` is the civil reading its accessors report (`Hour()` in `[0, 23]`,
  `Minute()` in `[0, 59]`, ...) together with its `*time.Location`;
* a Go `map[string]configRuleset` is an association list; every theorem about a loop over
  the map holds for every such list, hence for every order in which the map is visited;
* the time-zone database and the compute service are parameters;
* `log.Fatal` and a runtime panic end the run; what was done before is kept in the trace.
-/

set_option autoImplicit false

namespace GceSleep

/-! ## The time library as the program uses it -/

/-- A resolved `*time.Location`, identified by its zone name. -/
structure Location where
  name : String
deriving DecidableEq, Repr

/-- The location `time.UTC`. -/
def UTC : Location := ⟨"UTC"⟩

/-- A `time.Time`: the civil date and clock reading in its location. The ranges of the
clock fields are those the accessors document. `loc = none` is the nil location of the
zero value. -/
structure Time where
  year : Int
  month : Nat
  day : Nat
  hour : Fin 24
  minute : Fin 60
  second : Fin 60
  nsec : Nat
  loc : Option Location
deriving DecidableEq, Repr

/-- The accessor `t.Hour()`. -/
def Time.Hour (t : Time) : Nat := t.hour.val

/-- The accessor `t.Minute()`. -/
def Time.Minute (t : Time) : Nat := t.minute.val

/-- The zero value `time.Time{}`: January 1, year 1, 00:00:00 with a nil location. -/
def Time.zero : Time :=
  { year := 1, month := 1, day := 1, hour := 0, minute := 0, second := 0, nsec := 0,
    loc := none }

/-- The value `time.Date(0, 1, 1, hour, min, 0, 0, loc)`: what parsing a layout with only
an hour and a minute yields. -/
def clockTime (hour : Fin 24) (min : Fin 60) (loc : Location) : Time :=
  { year := 0, month := 1, day := 1, hour := hour, minute := min, second := 0, nsec := 0,
    loc := some loc }

/-! ## shouldBeRunning (root.go, lines 223-237) -/

/-- The function `shouldBeRunning(now, startTime, stopTime)`. -/
def shouldBeRunning (now startTime stopTime : Time) : Bool :=
  if startTime.Hour > now.Hour || stopTime.Hour < now.Hour then
    false
  else if startTime.Hour == now.Hour && startTime.Minute > now.Minute then
    false
  else if stopTime.Hour == now.Hour && stopTime.Minute < now.Minute then
    false
  else
    true


/-- The time-zone database of the host: which names `time.LoadLocation` can resolve, and the
civil reading of an instant in another zone (`Time.In`). -/
structure Zoneinfo where
  find : String → Option Location
  convert : Time → Location → Time

/-- The function `time.LoadLocation(name)`: the names "" and "UTC" are UTC, every other name is
looked up in the database; `none` is the error result, whose location is nil. -/
def LoadLocation (zi : Zoneinfo) (name : String) : Option Location :=
  if name == "" || name == "UTC" then some UTC else zi.find name

/-- The method `t.In(loc)`: it panics (`none`) on a nil location. -/
def Time.In (zi : Zoneinfo) (t : Time) (loc : Option Location) : Option Time :=
  match loc with
  | none => none
  | some l => some (zi.convert t l)

/-- The library predicate `isDigit(s, i)`. -/
def isDigit (s : List Char) (i : Nat) : Bool :=
  match s.get? i with
  | none => false
  | some c => '0' ≤ c && c ≤ '9'

/-- The numeric value of a digit character. -/
def digitVal (s : List Char) (i : Nat) : Nat :=
  match s.get? i with
  | none => 0
  | some c => c.toNat - '0'.toNat

/-- The library function `getnum(s, fixed)`: a one or two digit number, two digits required
when `fixed`; it returns the number and the rest of the text. -/
def getnum (s : List Char) (fixed : Bool) : Option (Nat × List Char) :=
  if !isDigit s 0 then
    none
  else if !isDigit s 1 then
    if fixed then none else some (digitVal s 0, s.drop 1)
  else
    some (digitVal s 0 * 10 + digitVal s 1, s.drop 2)

/-- The call `time.ParseInLocation("15:04", value, loc)`, the only layout the program uses:
an hour of one or two digits below 24, a colon, a minute of two digits below 60, and nothing
after. `none` is the error result, whose time is the zero value. -/
def ParseInLocation (value : String) (loc : Location) : Option Time :=
  match getnum value.toList false with
  | none => none
  | some (hour, value1) =>
    if hh : hour < 24 then
      match value1 with
      | ':' :: value2 =>
        match getnum value2 true with
        | none => none
        | some (min, value3) =>
          if hm : min < 60 then
            if value3.isEmpty then some (clockTime ⟨hour, hh⟩ ⟨min, hm⟩ loc) else none
          else none
      | _ => none
    else none

/-! ## Data model (root.go, lines 23-49) -/

/-- The struct `rawConfigRuleset`. -/
structure rawConfigRuleset where
  StartTime : String
  StopTime : String
  Timezone : String
  Days : List Int
deriving DecidableEq, Repr

/-- The struct `gceInstance`. -/
structure gceInstance where
  Name : String
  Project : String
  Zone : String
  Status : String
deriving DecidableEq, Repr

/-- The struct `configRuleset`. -/
structure configRuleset where
  StartTime : Time
  StopTime : Time
  Timezone : Option Location
  Days : List Int
  Instances : List gceInstance
  rawRuleset : rawConfigRuleset
deriving DecidableEq, Repr

/-- The zero value of `configRuleset`, which a map lookup yields for an absent key. -/
def configRuleset.zero : configRuleset :=
  { StartTime := Time.zero, StopTime := Time.zero, Timezone := none, Days := [],
    Instances := [], rawRuleset := ⟨"", "", "", []⟩ }

/-- An `error` built by go-multierror: `none` is nil, `some es` an aggregate with entries
`es` in the order they were appended. -/
abbrev MultiError := Option (List String)

/-- The call `multierror.Append(err, errors.New(msg))`. -/
def multierrorAppend (err : MultiError) (msg : String) : MultiError :=
  match err with
  | none => some [msg]
  | some es => some (es ++ [msg])

/-- The entries of an aggregate error; a nil error has none. -/
def MultiError.entries (err : MultiError) : List String := err.getD []

/-! ## newRuleset (root.go, lines 51-99) -/

/-- The loop over `r.Days` (lines 91-95). -/
def checkDays (days : List Int) (err : MultiError) : MultiError :=
  days.foldl
    (fun err day =>
      if day > 7 || day < 1 then
        multierrorAppend err "days must be an int between 1 and 7"
      else err)
    err

/-- The function `newRuleset(r)`, returning `(rs, err)`. -/
def newRuleset (zi : Zoneinfo) (r : rawConfigRuleset) : configRuleset × MultiError :=
  let rs : configRuleset := { configRuleset.zero with rawRuleset := r }
  let err : MultiError := none
  let timezone := LoadLocation zi r.Timezone
  let err := if timezone.isNone then multierrorAppend err "timezone is not valid" else err
  let rs := { rs with Timezone := timezone }
  let err := if r.StartTime == "" then multierrorAppend err "startTime cannot be blank" else err
  let err := if r.StopTime == "" then multierrorAppend err "stopTime cannot be blank" else err
  let (rs, err) :=
    match timezone with
    | some tz =>
      let startTime := ParseInLocation r.StartTime tz
      let err :=
        if startTime.isNone then
          multierrorAppend err "startTime is not in valid 24 hour HH:mm format"
        else err
      let rs := { rs with StartTime := startTime.getD Time.zero }
      let stopTime := ParseInLocation r.StopTime tz
      let err :=
        if stopTime.isNone then
          multierrorAppend err "stopTime is not in valid 24 hour HH:mm format"
        else err
      let rs := { rs with StopTime := stopTime.getD Time.zero }
      (rs, err)
    | none => (rs, err)
  let err := if r.Days.length > 7 then multierrorAppend err "days must be valid" else err
  let err := checkDays r.Days err
  let rs := { rs with Days := r.Days }
  (rs, err)

/-! ## The rule map (root.go, lines 124-132) -/

/-- A Go `map[string]configRuleset`, as an association list with unique keys. -/
abbrev RuleMap := List (String × configRuleset)

/-- The lookup `m[k]`: the zero value when the key is absent. -/
def RuleMap.get : RuleMap → String → configRuleset
  | [], _ => configRuleset.zero
  | (k', v) :: rest, k => if k' == k then v else RuleMap.get rest k

/-- The assignment `m[k] = v`: replaces the entry of `k`, or adds one. -/
def RuleMap.set : RuleMap → String → configRuleset → RuleMap
  | [], k, v => [(k, v)]
  | (k', v') :: rest, k, v =>
    if k' == k then (k, v) :: rest else (k', v') :: RuleMap.set rest k v

/-- The keys of the map. -/
def RuleMap.keys (m : RuleMap) : List String := m.map Prod.fst

/-- The loop that fills `activeRules` from `config.Ruleset`; `none` is `log.Fatal` on the
first ruleset with a non-nil error. -/
def compileRules (zi : Zoneinfo) : List (String × rawConfigRuleset) → RuleMap → Option RuleMap
  | [], activeRules => some activeRules
  | (index, rawRuleset) :: rest, activeRules =>
    match newRuleset zi rawRuleset with
    | (ruleset, none) => compileRules zi rest (activeRules.set index ruleset)
    | (_, some _) => none

/-! ## Instance grouping (root.go, lines 151-182) -/

/-- One `compute.MetadataItems`; `Value` is a pointer and may be nil. -/
structure MetadataItems where
  Key : String
  Value : Option String
deriving DecidableEq, Repr

/-- One listed `compute.Instance`, with the project and zone whose listing returned it;
`Metadata` is a pointer and may be nil. The nested loops over projects, zones and pages
visit the listed instances as one sequence. -/
structure Discovered where
  Project : String
  Zone : String
  Name : String
  Status : String
  Metadata : Option (List MetadataItems)
deriving DecidableEq, Repr

/-- The `gceInstance` the loop builds for a listed instance. -/
def Discovered.toInstance (d : Discovered) : gceInstance :=
  { Project := d.Project, Zone := d.Zone, Name := d.Name, Status := d.Status }

/-- Body of the loop over `instance.Metadata.Items` (lines 161-174); `none` is the panic of
dereferencing a nil `metadata.Value`. -/
def groupMetadata (d : Discovered) (activeRules : RuleMap) (metadata : MetadataItems) :
    Option RuleMap :=
  if metadata.Key == "gce-sleep-group" then
    match metadata.Value with
    | none => none
    | some value =>
      let actionableInstances := activeRules.get value
      let actionableInstances :=
        { actionableInstances with
          Instances := actionableInstances.Instances ++ [d.toInstance] }
      some (activeRules.set value actionableInstances)
  else
    some activeRules

/-- Body of the loop over `page.Items` (lines 159-175); `none` is a nil-pointer panic. -/
def groupInstance (activeRules : RuleMap) (d : Discovered) : Option RuleMap :=
  match d.Metadata with
  | none => none
  | some items => items.foldlM (groupMetadata d) activeRules

/-- The grouping of all listed instances, in the order they were listed. -/
def groupInstances (activeRules : RuleMap) (ds : List Discovered) : Option RuleMap :=
  ds.foldlM groupInstance activeRules

/-! ## Reconciliation (root.go, lines 184-217) -/

/-- What the loop does with one instance: the `Start` call, the `Stop` call, or neither. -/
inductive Action where
  | Start (i : gceInstance)
  | Stop (i : gceInstance)
  | NoOp (i : gceInstance)
deriving DecidableEq, Repr

/-- How a run stands: still going, ended by `log.Fatal`, or ended by a panic. -/
inductive Outcome where
  | running
  | fatal
  | panicked
deriving DecidableEq, Repr

/-- The state of the reconciliation loop: the actions taken so far, in order, and how the
run stands. -/
structure Run where
  actions : List Action
  outcome : Outcome
deriving DecidableEq, Repr

/-- The compute service: whether `call.Do()` of an action returns a nil error, given the
actions taken before it. -/
abbrev Provider := List Action → Action → Bool

/-- Issue a provider call: the action is recorded, and an error ends the run. -/
def Run.call (p : Provider) (run : Run) (a : Action) : Run :=
  if p run.actions a then
    { run with actions := run.actions ++ [a] }
  else
    { actions := run.actions ++ [a], outcome := Outcome.fatal }

/-- Body of the loop over `ruleset.Instances` (lines 190-216). -/
def reconcileInstance (p : Provider) (shouldBeRunning : Bool) (run : Run)
    (inst : gceInstance) : Run :=
  match run.outcome with
  | Outcome.running =>
    if shouldBeRunning && inst.Status == "TERMINATED" then
      run.call p (Action.Start inst)
    else if !shouldBeRunning && inst.Status == "RUNNING" then
      run.call p (Action.Stop inst)
    else
      { run with actions := run.actions ++ [Action.NoOp inst] }
  | _ => run

/-- Body of the loop over `activeRules` (lines 184-217); `now.In` panics on the nil
`Timezone` of a zero-value ruleset. -/
def reconcileRuleset (zi : Zoneinfo) (p : Provider) (now : Time) (run : Run)
    (ruleset : configRuleset) : Run :=
  match run.outcome with
  | Outcome.running =>
    match now.In zi ruleset.Timezone with
    | none => { run with outcome := Outcome.panicked }
    | some nowTimezone =>
      let shouldBeRunning := shouldBeRunning nowTimezone ruleset.StartTime ruleset.StopTime
      ruleset.Instances.foldl (reconcileInstance p shouldBeRunning) run
  | _ => run

/-- The reconciliation loop over the whole map, visiting the groups in list order. -/
def reconcile (zi : Zoneinfo) (p : Provider) (now : Time) (activeRules : RuleMap) : Run :=
  activeRules.foldl (fun run kv => reconcileRuleset zi p now run kv.2)
    { actions := [], outcome := Outcome.running }

/-! ## Specification-side notions for newRuleset -/

/-- A nil error for no entries, an aggregate otherwise. -/
def MultiError.ofList : List String → MultiError
  | [] => none
  | e :: es => some (e :: es)

/-- The test of the loop over `r.Days`. -/
def dayOutOfRange (day : Int) : Bool := day > 7 || day < 1

/-- The entries of the aggregate error of `newRuleset`, in closed form: one entry for each
check that fires, in the order of the checks, and one entry for each out-of-range day. -/
def expectedEntries (zi : Zoneinfo) (r : rawConfigRuleset) : List String :=
  (if (LoadLocation zi r.Timezone).isNone then ["timezone is not valid"] else []) ++
  (if r.StartTime == "" then ["startTime cannot be blank"] else []) ++
  (if r.StopTime == "" then ["stopTime cannot be blank"] else []) ++
  (match LoadLocation zi r.Timezone with
    | none => []
    | some tz =>
      (if (ParseInLocation r.StartTime tz).isNone then
        ["startTime is not in valid 24 hour HH:mm format"] else []) ++
      (if (ParseInLocation r.StopTime tz).isNone then
        ["stopTime is not in valid 24 hour HH:mm format"] else [])) ++
  (if r.Days.length > 7 then ["days must be valid"] else []) ++
  (r.Days.filter dayOutOfRange).map (fun _ => "days must be an int between 1 and 7")

/-- The kinds of violation the specification distinguishes. -/
inductive Violation where
  | invalidTimezone
  | invalidStartTime
  | invalidStopTime
  | tooManyDays
  | dayOutOfRange
deriving DecidableEq, Repr

/-- The violation an entry of the aggregate error reports. -/
def Violation.ofEntry (entry : String) : Option Violation :=
  if entry == "timezone is not valid" then some Violation.invalidTimezone
  else if entry == "startTime cannot be blank" then some Violation.invalidStartTime
  else if entry == "startTime is not in valid 24 hour HH:mm format" then
    some Violation.invalidStartTime
  else if entry == "stopTime cannot be blank" then some Violation.invalidStopTime
  else if entry == "stopTime is not in valid 24 hour HH:mm format" then
    some Violation.invalidStopTime
  else if entry == "days must be valid" then some Violation.tooManyDays
  else if entry == "days must be an int between 1 and 7" then some Violation.dayOutOfRange
  else none

/-- Whether a raw ruleset commits a violation of the given kind. A time is judged in the
resolved zone, or in UTC when the zone does not resolve. -/
def violated (zi : Zoneinfo) (r : rawConfigRuleset) : Violation → Bool
  | Violation.invalidTimezone => (LoadLocation zi r.Timezone).isNone
  | Violation.invalidStartTime =>
    r.StartTime == "" ||
      (ParseInLocation r.StartTime ((LoadLocation zi r.Timezone).getD UTC)).isNone
  | Violation.invalidStopTime =>
    r.StopTime == "" ||
      (ParseInLocation r.StopTime ((LoadLocation zi r.Timezone).getD UTC)).isNone
  | Violation.tooManyDays => r.Days.length > 7
  | Violation.dayOutOfRange => r.Days.any dayOutOfRange

/-- How many entries of the aggregate error of `newRuleset` report the given violation. -/
def entriesFor (zi : Zoneinfo) (r : rawConfigRuleset) (v : Violation) : Nat :=
  ((newRuleset zi r).2.entries.filter (fun e => Violation.ofEntry e == some v)).length

/-- The five kinds of violation. -/
def Violation.all : List Violation :=
  [Violation.invalidTimezone, Violation.invalidStartTime, Violation.invalidStopTime,
    Violation.tooManyDays, Violation.dayOutOfRange]

/-- Whether the aggregate error holds exactly one entry for each violation committed and
none for the others. -/
def OneEntryPerViolation (zi : Zoneinfo) (r : rawConfigRuleset) : Bool :=
  Violation.all.all (fun v => entriesFor zi r v == if violated zi r v then 1 else 0)

/-! ## Specification-side notions for grouping and reconciliation -/

/-- The group a metadata entry names: the value of an entry with key "gce-sleep-group". -/
def MetadataItems.tag (metadata : MetadataItems) : Option String :=
  if metadata.Key == "gce-sleep-group" then metadata.Value else none

/-- The groups a listed instance names, one for each of its "gce-sleep-group" entries. -/
def Discovered.tags (d : Discovered) : List String :=
  (d.Metadata.getD []).filterMap MetadataItems.tag

/-- No nil pointer is dereferenced while grouping the instance: its `Metadata` is set and
each of its "gce-sleep-group" entries has a value. -/
def Discovered.wellFormed (d : Discovered) : Bool :=
  match d.Metadata with
  | none => false
  | some items => items.all (fun metadata => metadata.Key != "gce-sleep-group" || metadata.Value.isSome)

/-- The ruleset with further instances appended to its group. -/
def configRuleset.addInstances (rs : configRuleset) (insts : List gceInstance) : configRuleset :=
  { rs with Instances := rs.Instances ++ insts }

/-- The listed instances that name group `k`, in the order they were listed, once for each
entry naming it. -/
def members (k : String) (ds : List Discovered) : List gceInstance :=
  ds.flatMap (fun d => (d.tags.filter (fun t => t == k)).map (fun _ => d.toInstance))

/-- In how many places of the map an instance is held, over all groups. -/
def placements (activeRules : RuleMap) (inst : gceInstance) : Nat :=
  (activeRules.map (fun kv => kv.2.Instances.count inst)).sum

/-- The decision table of the specification: start a terminated instance of a group that
should run, stop a running instance of a group that should not, and leave every other
instance alone. -/
def plannedAction (desired : Bool) (inst : gceInstance) : Action :=
  if desired = true ∧ inst.Status = "TERMINATED" then Action.Start inst
  else if desired = false ∧ inst.Status = "RUNNING" then Action.Stop inst
  else Action.NoOp inst

/-- The desired state of a group with a resolved timezone at the instant `now`. -/
def desiredState (zi : Zoneinfo) (now : Time) (ruleset : configRuleset) (loc : Location) : Bool :=
  shouldBeRunning (zi.convert now loc) ruleset.StartTime ruleset.StopTime

/-- Whether the status of an instance already matches the desired state of its group:
"RUNNING" where the group should run, "TERMINATED" where it should not. A group with a nil
timezone has no desired state and asks nothing. -/
def converged (zi : Zoneinfo) (now : Time) (ruleset : configRuleset) (inst : gceInstance) :
    Bool :=
  match ruleset.Timezone with
  | none => true
  | some loc =>
    inst.Status == (if desiredState zi now ruleset loc then "RUNNING" else "TERMINATED")

/-! ## Concrete inputs used in the examples -/

/-- A host whose database knows no zone by name. -/
def bareZoneinfo : Zoneinfo := { find := fun _ => none, convert := fun t l => { t with loc := some l } }

/-- The schedule of the specification's scenarios. -/
def officeHours : rawConfigRuleset :=
  { StartTime := "09:00", StopTime := "17:00", Timezone := "UTC", Days := [1, 2, 3, 4, 5] }

/-- A provider none of whose calls fails. -/
def alwaysOk : Provider := fun _ _ => true

/-- The compiled map of the scenarios: the one ruleset "office". -/
def officeRules : RuleMap := [("office", (newRuleset bareZoneinfo officeHours).1)]

/-- A listed instance tagged with the group "office". -/
def officeVm (name status : String) : Discovered :=
  { Project := "acme", Zone := "europe-west1-b", Name := name, Status := status,
    Metadata := some [⟨"startup-script", some "true"⟩, ⟨"gce-sleep-group", some "office"⟩] }

/-- A listed instance tagged with a group that no ruleset defines. -/
def ghostVm : Discovered :=
  { Project := "acme", Zone := "europe-west1-b", Name := "vm-ghost", Status := "RUNNING",
    Metadata := some [⟨"gce-sleep-group", some "ghost"⟩] }

/-- A listed instance with no "gce-sleep-group" entry. -/
def untaggedVm : Discovered :=
  { Project := "acme", Zone := "europe-west1-b", Name := "vm-plain", Status := "RUNNING",
    Metadata := some [⟨"startup-script", some "true"⟩] }

/-- A listed instance that carries the entry of the group "office" twice. -/
def twiceTaggedVm : Discovered :=
  { Project := "acme", Zone := "europe-west1-b", Name := "vm-twice", Status := "RUNNING",
    Metadata := some [⟨"gce-sleep-group", some "office"⟩, ⟨"gce-sleep-group", some "office"⟩] }

/-- A listed instance that carries the entries of the groups "office" and "lab". -/
def twoGroupVm : Discovered :=
  { Project := "acme", Zone := "europe-west1-b", Name := "vm-both", Status := "RUNNING",
    Metadata := some [⟨"gce-sleep-group", some "office"⟩, ⟨"gce-sleep-group", some "lab"⟩] }

/-- A compiled map with the two rulesets "office" and "lab". -/
def twoRules : RuleMap :=
  [("office", (newRuleset bareZoneinfo officeHours).1),
    ("lab", (newRuleset bareZoneinfo { officeHours with StartTime := "08:00" }).1)]

/-- A listing of two instances of the group "office" around an untagged one. -/
def officeListing : List Discovered :=
  [officeVm "vm-a" "RUNNING", untaggedVm, officeVm "vm-b" "TERMINATED"]

/-- The group "office" holding the given instances. -/
def officeGroup (insts : List gceInstance) : configRuleset :=
  (newRuleset bareZoneinfo officeHours).1.addInstances insts

/-- An instance of the project "acme". -/
def vm (name status : String) : gceInstance :=
  { Name := name, Project := "acme", Zone := "europe-west1-b", Status := status }

/-- The instant 2024-01-01T10:00:00Z. -/
def mondayTen : Time := { clockTime 10 0 UTC with year := 2024 }

/-! ## Helper lemmas -/

theorem Time.Hour_le (t : Time) : t.Hour ≤ 23 := by
  have := t.hour.isLt
  unfold Time.Hour
  omega

theorem Time.Minute_le (t : Time) : t.Minute ≤ 59 := by
  have := t.minute.isLt
  unfold Time.Minute
  omega

theorem shouldBeRunning_eq_true_iff (now startTime stopTime : Time) :
    shouldBeRunning now startTime stopTime = true ↔
      startTime.Hour ≤ now.Hour ∧ now.Hour ≤ stopTime.Hour ∧
      (startTime.Hour = now.Hour → startTime.Minute ≤ now.Minute) ∧
      (stopTime.Hour = now.Hour → now.Minute ≤ stopTime.Minute) := by
  unfold shouldBeRunning
  constructor
  · intro h
    split at h
    · exact absurd h (by simp)
    · split at h
      · exact absurd h (by simp)
      · split at h
        · exact absurd h (by simp)
        · simp only [Bool.or_eq_true, Bool.and_eq_true, decide_eq_true_eq, beq_iff_eq] at *
          refine ⟨by omega, by omega, ?_, ?_⟩
          · intro he; by_contra hc; apply ‹¬(startTime.Hour = now.Hour ∧ _)›
            exact ⟨he, by omega⟩
          · intro he; by_contra hc; apply ‹¬(stopTime.Hour = now.Hour ∧ _)›
            exact ⟨he, by omega⟩
  · rintro ⟨h1, h2, h3, h4⟩
    have c1 : ¬ ((decide (startTime.Hour > now.Hour) || decide (stopTime.Hour < now.Hour)) = true) := by
      simp only [Bool.or_eq_true, decide_eq_true_eq]; omega
    have c2 : ¬ ((startTime.Hour == now.Hour && decide (startTime.Minute > now.Minute)) = true) := by
      simp only [Bool.and_eq_true, decide_eq_true_eq, beq_iff_eq]
      rintro ⟨he, hm⟩; have := h3 he; omega
    have c3 : ¬ ((stopTime.Hour == now.Hour && decide (stopTime.Minute < now.Minute)) = true) := by
      simp only [Bool.and_eq_true, decide_eq_true_eq, beq_iff_eq]
      rintro ⟨he, hm⟩; have := h4 he; omega
    rw [if_neg c1, if_neg c2, if_neg c3]

theorem multierrorAppend_ofList (es : List String) (msg : String) :
    multierrorAppend (MultiError.ofList es) msg = MultiError.ofList (es ++ [msg]) := by
  cases es <;> simp [MultiError.ofList, multierrorAppend]

theorem append_if_ofList (c : Prop) [Decidable c] (es : List String) (msg : String) :
    (if c then multierrorAppend (MultiError.ofList es) msg else MultiError.ofList es) =
      MultiError.ofList (es ++ if c then [msg] else []) := by
  split <;> simp [multierrorAppend_ofList]

theorem checkDays_ofList (days : List Int) (es : List String) :
    checkDays days (MultiError.ofList es) =
      MultiError.ofList
        (es ++ (days.filter dayOutOfRange).map
          (fun _ => "days must be an int between 1 and 7")) := by
  unfold checkDays
  induction days generalizing es with
  | nil => simp
  | cons d ds ih =>
    rw [List.foldl_cons, append_if_ofList, ih]
    by_cases h : dayOutOfRange d = true
    · have h' : (d > 7 || d < 1) = true := h
      simp [List.filter_cons, h, h']
    · have h' : ¬ ((decide (d > 7) || decide (d < 1)) = true) := h
      simp [List.filter_cons, h, h']

theorem checkDays_none (days : List Int) :
    checkDays days none =
      MultiError.ofList ((days.filter dayOutOfRange).map
          (fun _ => "days must be an int between 1 and 7")) := by
  simpa using checkDays_ofList days []

theorem checkDays_some (days : List Int) (e : String) (es : List String) :
    checkDays days (some (e :: es)) =
      MultiError.ofList
        (e :: es ++ (days.filter dayOutOfRange).map
          (fun _ => "days must be an int between 1 and 7")) := by
  simpa [MultiError.ofList] using checkDays_ofList days (e :: es)

theorem newRuleset_err (zi : Zoneinfo) (r : rawConfigRuleset) :
    (newRuleset zi r).2 = MultiError.ofList (expectedEntries zi r) := by
  unfold newRuleset expectedEntries
  cases hz : LoadLocation zi r.Timezone with
  | none =>
    by_cases h1 : r.StartTime = "" <;> by_cases h2 : r.StopTime = "" <;>
      by_cases h5 : 7 < r.Days.length <;>
      simp [h1, h2, h5, multierrorAppend, checkDays_none, checkDays_some]
  | some tz =>
    dsimp only
    generalize ParseInLocation r.StartTime tz = ps
    generalize ParseInLocation r.StopTime tz = pe
    cases ps <;> cases pe <;>
      by_cases h1 : r.StartTime = "" <;> by_cases h2 : r.StopTime = "" <;>
      by_cases h5 : 7 < r.Days.length <;>
      simp [h1, h2, h5, multierrorAppend, checkDays_none, checkDays_some]

theorem MultiError.ofList_eq_none (es : List String) :
    MultiError.ofList es = none ↔ es = [] := by
  cases es <;> simp [MultiError.ofList]

theorem MultiError.entries_ofList (es : List String) :
    (MultiError.ofList es).entries = es := by
  cases es <;> simp [MultiError.ofList, MultiError.entries]

theorem newRuleset_Days (zi : Zoneinfo) (r : rawConfigRuleset) :
    (newRuleset zi r).1.Days = r.Days := by
  unfold newRuleset
  cases LoadLocation zi r.Timezone <;> rfl

theorem ParseInLocation_empty (loc : Location) : ParseInLocation "" loc = none := by
  rfl

theorem expectedEntries_eq_nil (zi : Zoneinfo) (r : rawConfigRuleset) :
    expectedEntries zi r = [] ↔
      (∃ tz, LoadLocation zi r.Timezone = some tz ∧
        r.StartTime ≠ "" ∧ (ParseInLocation r.StartTime tz).isSome = true ∧
        r.StopTime ≠ "" ∧ (ParseInLocation r.StopTime tz).isSome = true) ∧
      r.Days.length ≤ 7 ∧ ∀ day ∈ r.Days, 1 ≤ day ∧ day ≤ 7 := by
  have hdays : (∀ day ∈ r.Days, dayOutOfRange day = false) ↔
      ∀ day ∈ r.Days, 1 ≤ day ∧ day ≤ 7 := by
    constructor
    · intro h day hd
      have := h day hd
      simp only [dayOutOfRange, Bool.or_eq_false_iff, decide_eq_false_iff_not] at this
      omega
    · intro h day hd
      have := h day hd
      simp only [dayOutOfRange, Bool.or_eq_false_iff, decide_eq_false_iff_not]
      omega
  unfold expectedEntries
  cases hz : LoadLocation zi r.Timezone with
  | none => simp
  | some tz =>
    simp only [List.append_eq_nil, List.map_eq_nil_iff, List.filter_eq_nil_iff,
      Bool.not_eq_true, hdays, Option.some.injEq, exists_eq_left']
    generalize ParseInLocation r.StartTime tz = ps
    generalize ParseInLocation r.StopTime tz = pe
    cases ps <;> cases pe <;> simp [and_assoc]

/-! ## Claims about newRuleset -/

/-- C3: `newRuleset` returns a nil error exactly when the timezone resolves, the start and
stop times are non-empty and parse as HH:MM in that zone, there are at most 7 days and each
day is in [1,7]. On success the returned days are those of the input, all in [1,7] and at
most 7; and success is unchanged when the start and stop times are exchanged, so it does not
depend on which of them comes first. -/
theorem newRuleset_nil_error_iff (zi : Zoneinfo) (r : rawConfigRuleset) :
    ((newRuleset zi r).2 = none ↔
      (∃ tz, LoadLocation zi r.Timezone = some tz ∧
        r.StartTime ≠ "" ∧ (ParseInLocation r.StartTime tz).isSome = true ∧
        r.StopTime ≠ "" ∧ (ParseInLocation r.StopTime tz).isSome = true) ∧
      r.Days.length ≤ 7 ∧ ∀ day ∈ r.Days, 1 ≤ day ∧ day ≤ 7) ∧
    ((newRuleset zi r).2 = none →
      (∀ day ∈ (newRuleset zi r).1.Days, 1 ≤ day ∧ day ≤ 7) ∧
        (newRuleset zi r).1.Days.length ≤ 7) ∧
    ((newRuleset zi r).2 = none ↔
      (newRuleset zi { r with StartTime := r.StopTime, StopTime := r.StartTime }).2 = none) := by
  have key : ∀ r' : rawConfigRuleset, (newRuleset zi r').2 = none ↔
      (∃ tz, LoadLocation zi r'.Timezone = some tz ∧
        r'.StartTime ≠ "" ∧ (ParseInLocation r'.StartTime tz).isSome = true ∧
        r'.StopTime ≠ "" ∧ (ParseInLocation r'.StopTime tz).isSome = true) ∧
      r'.Days.length ≤ 7 ∧ ∀ day ∈ r'.Days, 1 ≤ day ∧ day ≤ 7 := by
    intro r'
    rw [newRuleset_err, MultiError.ofList_eq_none, expectedEntries_eq_nil]
  refine ⟨key r, ?_, ?_⟩
  · intro h
    rw [newRuleset_Days]
    exact ⟨((key r).1 h).2.2, ((key r).1 h).2.1⟩
  · rw [key r, key]
    constructor
    · rintro ⟨⟨tz, h1, h2, h3, h4, h5⟩, h6⟩
      exact ⟨⟨tz, h1, h4, h5, h2, h3⟩, h6⟩
    · rintro ⟨⟨tz, h1, h2, h3, h4, h5⟩, h6⟩
      exact ⟨⟨tz, h1, h4, h5, h2, h3⟩, h6⟩

/-- Example for C3: the office-hours schedule compiles, and so does the overnight window
22:00 to 06:00. -/
theorem newRuleset_nil_error_iff_witness :
    (newRuleset bareZoneinfo officeHours).2 = none ∧
    (newRuleset bareZoneinfo
      { officeHours with StartTime := "22:00", StopTime := "06:00" }).2 = none :=
  ⟨(newRuleset_nil_error_iff bareZoneinfo officeHours).1.2
      ⟨⟨UTC, by decide, by decide, by decide, by decide, by decide⟩, by decide, by decide⟩,
    (newRuleset_nil_error_iff bareZoneinfo
      { officeHours with StartTime := "22:00", StopTime := "06:00" }).1.2
      ⟨⟨UTC, by decide, by decide, by decide, by decide, by decide⟩, by decide, by decide⟩⟩

/-- C4 as stated fails: a blank start time under a valid timezone is reported twice, two
out-of-range days are reported twice, and a malformed start time under an unresolvable
timezone is not reported at all. -/
theorem newRuleset_not_one_entry_per_violation :
    OneEntryPerViolation bareZoneinfo { officeHours with StartTime := "" } = false ∧
    entriesFor bareZoneinfo { officeHours with StartTime := "" } Violation.invalidStartTime = 2 ∧
    OneEntryPerViolation bareZoneinfo { officeHours with Days := [0, 9] } = false ∧
    entriesFor bareZoneinfo { officeHours with Days := [0, 9] } Violation.dayOutOfRange = 2 ∧
    OneEntryPerViolation bareZoneinfo
        { officeHours with Timezone := "Mars/Olympus", StartTime := "nine" } = false ∧
    entriesFor bareZoneinfo { officeHours with Timezone := "Mars/Olympus", StartTime := "nine" }
        Violation.invalidStartTime = 0 := by
  decide

/-- C4, amended: the entries of the aggregate error are, in this order, "timezone is not
valid" when the timezone does not resolve, "startTime cannot be blank" when the start time is
empty, "stopTime cannot be blank" when the stop time is empty, then only when the timezone
resolves the HH:mm format entry of each time that does not parse, "days must be valid" when
there are more than 7 days, and one "days must be an int between 1 and 7" for each
out-of-range day. Every check that fires adds its entry, and the error is nil exactly when
no check fires. -/
theorem newRuleset_entries (zi : Zoneinfo) (r : rawConfigRuleset) :
    (newRuleset zi r).2.entries = expectedEntries zi r ∧
    ((newRuleset zi r).2 = none ↔ expectedEntries zi r = []) := by
  rw [newRuleset_err, MultiError.entries_ofList, MultiError.ofList_eq_none]
  exact ⟨rfl, Iff.rfl⟩

/-- C9: when the timezone does not resolve, `newRuleset` reports "timezone is not valid",
leaves the returned start and stop times at the zero value and the timezone nil, and reports
no HH:mm format error for either time, whatever the two strings contain. -/
theorem newRuleset_bad_timezone (zi : Zoneinfo) (r : rawConfigRuleset)
    (h : LoadLocation zi r.Timezone = none) :
    "timezone is not valid" ∈ (newRuleset zi r).2.entries ∧
    (newRuleset zi r).1.StartTime = Time.zero ∧
    (newRuleset zi r).1.StopTime = Time.zero ∧
    (newRuleset zi r).1.Timezone = none ∧
    "startTime is not in valid 24 hour HH:mm format" ∉ (newRuleset zi r).2.entries ∧
    "stopTime is not in valid 24 hour HH:mm format" ∉ (newRuleset zi r).2.entries := by
  have hfields : (newRuleset zi r).1.StartTime = Time.zero ∧
      (newRuleset zi r).1.StopTime = Time.zero ∧ (newRuleset zi r).1.Timezone = none := by
    unfold newRuleset
    rw [h]
    exact ⟨rfl, rfl, rfl⟩
  rw [newRuleset_err, MultiError.entries_ofList]
  refine ⟨?_, hfields.1, hfields.2.1, hfields.2.2, ?_, ?_⟩ <;>
    · unfold expectedEntries
      rw [h]
      by_cases h1 : r.StartTime = "" <;> by_cases h2 : r.StopTime = "" <;>
        by_cases h5 : 7 < r.Days.length <;> simp [h1, h2, h5]

/-- Example for C9: an unknown zone with a well-formed start time and a malformed stop
time. -/
theorem newRuleset_bad_timezone_witness :
    LoadLocation bareZoneinfo "Mars/Olympus" = none ∧
    (newRuleset bareZoneinfo
      { officeHours with Timezone := "Mars/Olympus", StopTime := "5pm" }).2.entries =
        ["timezone is not valid"] ∧
    (newRuleset bareZoneinfo
      { officeHours with Timezone := "Mars/Olympus", StopTime := "5pm" }).1.StartTime =
        Time.zero :=
  ⟨by decide, by decide,
    (newRuleset_bad_timezone bareZoneinfo
      { officeHours with Timezone := "Mars/Olympus", StopTime := "5pm" } (by decide)).2.1⟩

/-! ## Claims about shouldBeRunning -/


/-- C1: `shouldBeRunning` returns false exactly when now's hour is before the start hour or
after the stop hour, or the hours are equal at the start and now's minute is earlier, or equal
at the stop and now's minute is later; it returns true exactly when the minute of day of now
lies between those of start and stop, both ends included. With start 09:00 and stop 17:00 it
is true at 10:00 and false at 08:59. -/
theorem shouldBeRunning_window :
    (∀ now startTime stopTime : Time,
      (shouldBeRunning now startTime stopTime = false ↔
        (now.Hour < startTime.Hour ∨ stopTime.Hour < now.Hour ∨
          (now.Hour = startTime.Hour ∧ now.Minute < startTime.Minute) ∨
          (now.Hour = stopTime.Hour ∧ stopTime.Minute < now.Minute))) ∧
      (shouldBeRunning now startTime stopTime = true ↔
        (60 * startTime.Hour + startTime.Minute ≤ 60 * now.Hour + now.Minute ∧
          60 * now.Hour + now.Minute ≤ 60 * stopTime.Hour + stopTime.Minute))) ∧
    shouldBeRunning { clockTime 10 0 UTC with year := 2024 } (clockTime 9 0 UTC)
      (clockTime 17 0 UTC) = true ∧
    shouldBeRunning { clockTime 8 59 UTC with year := 2024 } (clockTime 9 0 UTC)
      (clockTime 17 0 UTC) = false := by
  refine ⟨?_, by decide, by decide⟩
  intro now startTime stopTime
  have hs := startTime.Minute_le
  have hn := now.Minute_le
  have he := stopTime.Minute_le
  have key := shouldBeRunning_eq_true_iff now startTime stopTime
  constructor
  · rw [← Bool.not_eq_true, key]
    constructor
    · intro h
      by_contra hc
      apply h
      refine ⟨by omega, by omega, ?_, ?_⟩ <;> intro heq <;> omega
    · rintro h ⟨h1, h2, h3, h4⟩
      rcases h with h | h | ⟨h, h'⟩ | ⟨h, h'⟩
      · omega
      · omega
      · have := h3 h.symm; omega
      · have := h4 h.symm; omega
  · rw [key]
    constructor
    · rintro ⟨h1, h2, h3, h4⟩
      constructor
      · rcases Nat.lt_or_ge startTime.Hour now.Hour with h | h
        · omega
        · have := h3 (by omega); omega
      · rcases Nat.lt_or_ge now.Hour stopTime.Hour with h | h
        · omega
        · have := h4 (by omega); omega
    · rintro ⟨h1, h2⟩
      refine ⟨by omega, by omega, ?_, ?_⟩ <;> intro heq <;> omega

/-! ## Lemmas about the rule map and grouping -/

theorem configRuleset.addInstances_nil (rs : configRuleset) : rs.addInstances [] = rs := by
  simp [configRuleset.addInstances]

theorem configRuleset.addInstances_append (rs : configRuleset) (a b : List gceInstance) :
    (rs.addInstances a).addInstances b = rs.addInstances (a ++ b) := by
  simp [configRuleset.addInstances]

theorem RuleMap.get_set (m : RuleMap) (k : String) (v : configRuleset) (q : String) :
    (RuleMap.set m k v).get q = if k = q then v else RuleMap.get m q := by
  induction m with
  | nil => simp [RuleMap.set, RuleMap.get]
  | cons kv rest ih =>
    obtain ⟨k0, v0⟩ := kv
    by_cases h : k0 = k
    · subst h
      by_cases hq : k0 = q <;> simp [RuleMap.set, RuleMap.get, hq]
    · by_cases hq : k0 = q
      · subst hq
        have hkq : ¬ k = k0 := fun e => h e.symm
        simp [RuleMap.set, RuleMap.get, h, hkq]
      · simp [RuleMap.set, RuleMap.get, h, hq, ih]

theorem RuleMap.mem_keys_set (m : RuleMap) (k : String) (v : configRuleset) (q : String)
    (h : q ∈ RuleMap.keys m) : q ∈ RuleMap.keys (RuleMap.set m k v) := by
  induction m with
  | nil => simp [RuleMap.keys] at h
  | cons kv rest ih =>
    obtain ⟨k0, v0⟩ := kv
    simp only [RuleMap.keys, List.map_cons, List.mem_cons] at h
    by_cases hk : k0 = k
    · subst hk
      simpa [RuleMap.set, RuleMap.keys] using h
    · rcases h with h | h
      · simp [RuleMap.set, RuleMap.keys, hk, h]
      · have := ih h
        simp only [RuleMap.keys] at this
        simp [RuleMap.set, RuleMap.keys, hk, this]

theorem groupMetadata_spec (d : Discovered) (m : RuleMap) (metadata : MetadataItems)
    (h : (metadata.Key != "gce-sleep-group" || metadata.Value.isSome) = true) :
    ∃ m', groupMetadata d m metadata = some m' ∧
      (∀ q, RuleMap.get m' q = (RuleMap.get m q).addInstances
        ((metadata.tag.toList.filter (fun t => t == q)).map (fun _ => d.toInstance))) ∧
      (∀ q ∈ RuleMap.keys m, q ∈ RuleMap.keys m') := by
  unfold groupMetadata MetadataItems.tag
  by_cases hk : metadata.Key = "gce-sleep-group"
  · cases hv : metadata.Value with
    | none => simp [hk, hv] at h
    | some value =>
      refine ⟨RuleMap.set m value ((RuleMap.get m value).addInstances [d.toInstance]),
        by simp [hk, configRuleset.addInstances], ?_, ?_⟩
      · intro q
        rw [RuleMap.get_set]
        by_cases hq : value = q
        · subst hq
          simp [hk, configRuleset.addInstances]
        · simp [hk, hq, configRuleset.addInstances_nil]
      · intro q hq
        exact RuleMap.mem_keys_set _ _ _ _ hq
  · refine ⟨m, by simp [hk], ?_, fun q hq => hq⟩
    intro q
    simp [hk, configRuleset.addInstances_nil]

theorem foldlM_groupMetadata (d : Discovered) (items : List MetadataItems) (m : RuleMap)
    (h : items.all
      (fun metadata => metadata.Key != "gce-sleep-group" || metadata.Value.isSome) = true) :
    ∃ m', items.foldlM (groupMetadata d) m = some m' ∧
      (∀ q, RuleMap.get m' q = (RuleMap.get m q).addInstances
        (((items.filterMap MetadataItems.tag).filter (fun t => t == q)).map
          (fun _ => d.toInstance))) ∧
      (∀ q ∈ RuleMap.keys m, q ∈ RuleMap.keys m') := by
  induction items generalizing m with
  | nil =>
    exact ⟨m, rfl, fun q => by simp [configRuleset.addInstances_nil], fun q hq => hq⟩
  | cons metadata rest ih =>
    rw [List.all_cons, Bool.and_eq_true] at h
    obtain ⟨m1, h1, hget1, hkeys1⟩ := groupMetadata_spec d m metadata h.1
    obtain ⟨m2, h2, hget2, hkeys2⟩ := ih m1 h.2
    refine ⟨m2, ?_, ?_, fun q hq => hkeys2 q (hkeys1 q hq)⟩
    · rw [List.foldlM_cons, h1]
      exact h2
    · intro q
      rw [hget2, hget1, configRuleset.addInstances_append]
      congr 1
      cases ht : metadata.tag <;> simp [List.filterMap_cons, ht, List.filter_cons]
      split <;> simp [Nat.add_comm]

theorem groupInstance_spec (m : RuleMap) (d : Discovered) (h : d.wellFormed = true) :
    ∃ m', groupInstance m d = some m' ∧
      (∀ q, RuleMap.get m' q = (RuleMap.get m q).addInstances (members q [d])) ∧
      (∀ q ∈ RuleMap.keys m, q ∈ RuleMap.keys m') := by
  unfold groupInstance
  unfold Discovered.wellFormed at h
  cases hm : d.Metadata with
  | none => simp [hm] at h
  | some items =>
    simp only [hm] at h
    obtain ⟨m', h1, h2, h3⟩ := foldlM_groupMetadata d items m h
    refine ⟨m', h1, ?_, h3⟩
    intro q
    rw [h2]
    simp [members, Discovered.tags, hm]

theorem groupInstances_spec (ds : List Discovered) (m : RuleMap)
    (h : ∀ d ∈ ds, d.wellFormed = true) :
    ∃ m', groupInstances m ds = some m' ∧
      (∀ q, RuleMap.get m' q = (RuleMap.get m q).addInstances (members q ds)) ∧
      (∀ q ∈ RuleMap.keys m, q ∈ RuleMap.keys m') := by
  unfold groupInstances
  induction ds generalizing m with
  | nil =>
    exact ⟨m, rfl, fun q => by simp [members, configRuleset.addInstances_nil], fun q hq => hq⟩
  | cons d rest ih =>
    obtain ⟨m1, h1, hget1, hkeys1⟩ := groupInstance_spec m d (h d (List.mem_cons_self _ _))
    obtain ⟨m2, h2, hget2, hkeys2⟩ := ih m1 (fun d' hd' => h d' (List.mem_cons_of_mem _ hd'))
    refine ⟨m2, ?_, ?_, fun q hq => hkeys2 q (hkeys1 q hq)⟩
    · rw [List.foldlM_cons, h1]
      exact h2
    · intro q
      rw [hget2, hget1, configRuleset.addInstances_append]
      simp [members]

theorem RuleMap.mem_set (m : RuleMap) (k : String) (v : configRuleset)
    (kv : String × configRuleset) (h : kv ∈ RuleMap.set m k v) : kv ∈ m ∨ kv = (k, v) := by
  induction m with
  | nil =>
    simp only [RuleMap.set, List.mem_singleton] at h
    exact Or.inr h
  | cons e rest ih =>
    obtain ⟨k0, v0⟩ := e
    by_cases hk : k0 = k
    · simp only [RuleMap.set, hk, beq_self_eq_true, if_true, List.mem_cons] at h
      rcases h with h | h
      · exact Or.inr h
      · exact Or.inl (List.mem_cons_of_mem _ h)
    · have hset : RuleMap.set ((k0, v0) :: rest) k v = (k0, v0) :: RuleMap.set rest k v := by
        simp [RuleMap.set, hk]
      rw [hset, List.mem_cons] at h
      rcases h with h | h
      · exact Or.inl (h ▸ List.mem_cons_self _ _)
      · rcases ih h with h' | h'
        · exact Or.inl (List.mem_cons_of_mem _ h')
        · exact Or.inr h'

theorem RuleMap.get_mem (m : RuleMap) (k : String) (inst : gceInstance)
    (h : inst ∈ (RuleMap.get m k).Instances) :
    ∃ kv0 ∈ m, kv0.1 = k ∧ inst ∈ kv0.2.Instances := by
  induction m with
  | nil => simp [RuleMap.get, configRuleset.zero] at h
  | cons e rest ih =>
    obtain ⟨k0, v0⟩ := e
    by_cases hk : k0 = k
    · have hget : RuleMap.get ((k0, v0) :: rest) k = v0 := by simp [RuleMap.get, hk]
      rw [hget] at h
      exact ⟨(k0, v0), List.mem_cons_self _ _, hk, h⟩
    · have hget : RuleMap.get ((k0, v0) :: rest) k = RuleMap.get rest k := by
        simp [RuleMap.get, hk]
      rw [hget] at h
      obtain ⟨kv0, hmem, hkey, hin⟩ := ih h
      exact ⟨kv0, List.mem_cons_of_mem _ hmem, hkey, hin⟩

theorem count_singleton_instance (x inst : gceInstance) :
    List.count inst [x] = if x = inst then 1 else 0 := by
  by_cases hx : x = inst
  · subst hx; simp
  · have hb : (x == inst) = false := by simpa using hx
    simp [List.count_cons, hb, hx]

theorem placements_nil (inst : gceInstance) : placements [] inst = 0 := rfl

theorem placements_cons (k : String) (v : configRuleset) (rest : RuleMap)
    (inst : gceInstance) :
    placements ((k, v) :: rest) inst = v.Instances.count inst + placements rest inst := rfl

theorem placements_set (m : RuleMap) (k : String) (x inst : gceInstance) :
    placements (RuleMap.set m k ((RuleMap.get m k).addInstances [x])) inst =
      placements m inst + (if x = inst then 1 else 0) := by
  induction m with
  | nil =>
    have hset : RuleMap.set [] k ((RuleMap.get [] k).addInstances [x]) =
        [(k, configRuleset.zero.addInstances [x])] := rfl
    rw [hset, placements_cons, placements_nil]
    simp [configRuleset.addInstances, configRuleset.zero, count_singleton_instance]
  | cons e rest ih =>
    obtain ⟨k0, v0⟩ := e
    by_cases hk : k0 = k
    · have hset : RuleMap.set ((k0, v0) :: rest) k
          ((RuleMap.get ((k0, v0) :: rest) k).addInstances [x]) =
          (k, v0.addInstances [x]) :: rest := by
        simp [RuleMap.set, RuleMap.get, hk]
      rw [hset, placements_cons, placements_cons]
      simp only [configRuleset.addInstances, List.count_append, count_singleton_instance]
      omega
    · have hset : RuleMap.set ((k0, v0) :: rest) k
          ((RuleMap.get ((k0, v0) :: rest) k).addInstances [x]) =
          (k0, v0) :: RuleMap.set rest k ((RuleMap.get rest k).addInstances [x]) := by
        simp [RuleMap.set, RuleMap.get, hk]
      rw [hset, placements_cons, placements_cons, ih]
      omega

theorem groupMetadata_sound (d : Discovered) (m m' : RuleMap) (metadata : MetadataItems)
    (h : groupMetadata d m metadata = some m') :
    (∀ kv ∈ m', ∀ inst ∈ kv.2.Instances,
      (∃ kv0 ∈ m, kv0.1 = kv.1 ∧ inst ∈ kv0.2.Instances) ∨
        (metadata.tag = some kv.1 ∧ d.toInstance = inst)) ∧
    (∀ inst, placements m' inst =
      placements m inst + (if d.toInstance = inst then metadata.tag.toList.length else 0)) := by
  unfold groupMetadata at h
  by_cases hk : metadata.Key = "gce-sleep-group"
  · cases hv : metadata.Value with
    | none => simp [hk, hv] at h
    | some value =>
      have htag : metadata.tag = some value := by simp [MetadataItems.tag, hk, hv]
      have hm' : m' = RuleMap.set m value ((RuleMap.get m value).addInstances [d.toInstance]) := by
        simp only [hk, hv, beq_self_eq_true, if_true, Option.some.injEq] at h
        exact h.symm
      subst hm'
      constructor
      · intro kv hkv inst hinst
        rcases RuleMap.mem_set _ _ _ _ hkv with hold | hnew
        · exact Or.inl ⟨kv, hold, rfl, hinst⟩
        · subst hnew
          simp only [configRuleset.addInstances, List.mem_append, List.mem_singleton] at hinst
          rcases hinst with hinst | hinst
          · exact Or.inl (RuleMap.get_mem m value inst hinst)
          · exact Or.inr ⟨htag, hinst.symm⟩
      · intro inst
        rw [placements_set, htag]
        by_cases hx : d.toInstance = inst <;> simp [hx]
  · have htag : metadata.tag = none := by simp [MetadataItems.tag, hk]
    have hb : (metadata.Key == "gce-sleep-group") = false := by simpa using hk
    simp only [hb, Bool.false_eq_true, if_false, Option.some.injEq] at h
    subst h
    exact ⟨fun kv hkv inst hinst => Or.inl ⟨kv, hkv, rfl, hinst⟩,
      fun inst => by simp [htag]⟩

theorem foldlM_groupMetadata_sound (d : Discovered) (items : List MetadataItems)
    (m m' : RuleMap) (h : items.foldlM (groupMetadata d) m = some m') :
    (∀ kv ∈ m', ∀ inst ∈ kv.2.Instances,
      (∃ kv0 ∈ m, kv0.1 = kv.1 ∧ inst ∈ kv0.2.Instances) ∨
        (kv.1 ∈ items.filterMap MetadataItems.tag ∧ d.toInstance = inst)) ∧
    (∀ inst, placements m' inst =
      placements m inst +
        (if d.toInstance = inst then (items.filterMap MetadataItems.tag).length else 0)) := by
  induction items generalizing m with
  | nil =>
    simp only [List.foldlM_nil, pure, Option.some.injEq] at h
    subst h
    exact ⟨fun kv hkv inst hinst => Or.inl ⟨kv, hkv, rfl, hinst⟩, fun inst => by simp⟩
  | cons metadata rest ih =>
    rw [List.foldlM_cons] at h
    cases h1 : groupMetadata d m metadata with
    | none => simp [h1] at h
    | some m1 =>
      rw [h1] at h
      obtain ⟨hs1, hp1⟩ := groupMetadata_sound d m m1 metadata h1
      obtain ⟨hs2, hp2⟩ := ih m1 h
      constructor
      · intro kv hkv inst hinst
        rcases hs2 kv hkv inst hinst with ⟨kv1, hkv1, hkey, hin1⟩ | ⟨htag, hd⟩
        · rcases hs1 kv1 hkv1 inst hin1 with ⟨kv0, hkv0, hkey0, hin0⟩ | ⟨htag, hd⟩
          · exact Or.inl ⟨kv0, hkv0, hkey0.trans hkey, hin0⟩
          · refine Or.inr ⟨?_, hd⟩
            rw [List.mem_filterMap]
            exact ⟨metadata, List.mem_cons_self _ _, by rw [htag, hkey]⟩
        · refine Or.inr ⟨?_, hd⟩
          rw [List.mem_filterMap] at htag ⊢
          obtain ⟨a, ha, hta⟩ := htag
          exact ⟨a, List.mem_cons_of_mem _ ha, hta⟩
      · intro inst
        rw [hp2, hp1]
        by_cases hx : d.toInstance = inst <;>
          cases ht : metadata.tag <;> (simp [hx, ht, List.filterMap_cons]; try omega)

theorem groupInstances_sound (ds : List Discovered) (m m' : RuleMap)
    (h : groupInstances m ds = some m') :
    (∀ kv ∈ m', ∀ inst ∈ kv.2.Instances,
      (∃ kv0 ∈ m, kv0.1 = kv.1 ∧ inst ∈ kv0.2.Instances) ∨
        (∃ d ∈ ds, kv.1 ∈ d.tags ∧ d.toInstance = inst)) ∧
    (∀ inst, placements m' inst =
      placements m inst +
        ((ds.filter (fun d => d.toInstance == inst)).map (fun d => d.tags.length)).sum) := by
  unfold groupInstances at h
  induction ds generalizing m with
  | nil =>
    simp only [List.foldlM_nil, pure, Option.some.injEq] at h
    subst h
    exact ⟨fun kv hkv inst hinst => Or.inl ⟨kv, hkv, rfl, hinst⟩, fun inst => by simp⟩
  | cons d rest ih =>
    rw [List.foldlM_cons] at h
    cases h1 : groupInstance m d with
    | none => simp [h1] at h
    | some m1 =>
      rw [h1] at h
      unfold groupInstance at h1
      cases hm : d.Metadata with
      | none => simp [hm] at h1
      | some items =>
        simp only [hm] at h1
        obtain ⟨hs1, hp1⟩ := foldlM_groupMetadata_sound d items m m1 h1
        obtain ⟨hs2, hp2⟩ := ih m1 h
        have htags : d.tags = items.filterMap MetadataItems.tag := by
          simp [Discovered.tags, hm]
        constructor
        · intro kv hkv inst hinst
          rcases hs2 kv hkv inst hinst with ⟨kv1, hkv1, hkey, hin1⟩ | ⟨d', hd', htag, hd⟩
          · rcases hs1 kv1 hkv1 inst hin1 with ⟨kv0, hkv0, hkey0, hin0⟩ | ⟨htag, hd⟩
            · exact Or.inl ⟨kv0, hkv0, hkey0.trans hkey, hin0⟩
            · exact Or.inr ⟨d, List.mem_cons_self _ _, by rw [htags, ← hkey]; exact htag, hd⟩
          · exact Or.inr ⟨d', List.mem_cons_of_mem _ hd', htag, hd⟩
        · intro inst
          rw [hp2, hp1, ← htags]
          by_cases hx : d.toInstance = inst <;> (simp [hx, List.filter_cons]; try omega)

theorem RuleMap.keys_set_of_mem (m : RuleMap) (k : String) (v : configRuleset)
    (h : k ∈ RuleMap.keys m) : RuleMap.keys (RuleMap.set m k v) = RuleMap.keys m := by
  induction m with
  | nil => simp [RuleMap.keys] at h
  | cons e rest ih =>
    obtain ⟨k0, v0⟩ := e
    by_cases hk : k0 = k
    · simp [RuleMap.set, RuleMap.keys, hk]
    · have hrest : k ∈ RuleMap.keys rest := by
        simp only [RuleMap.keys, List.map_cons, List.mem_cons] at h
        rcases h with h | h
        · exact absurd h.symm hk
        · exact h
      have := ih hrest
      simp only [RuleMap.keys] at this
      simp [RuleMap.set, RuleMap.keys, hk, this]

theorem groupMetadata_keys (d : Discovered) (m m' : RuleMap) (metadata : MetadataItems)
    (h : groupMetadata d m metadata = some m')
    (hk : ∀ t, metadata.tag = some t → t ∈ RuleMap.keys m) :
    RuleMap.keys m' = RuleMap.keys m := by
  unfold groupMetadata at h
  by_cases hkey : metadata.Key = "gce-sleep-group"
  · cases hv : metadata.Value with
    | none => simp [hkey, hv] at h
    | some value =>
      have htag : metadata.tag = some value := by simp [MetadataItems.tag, hkey, hv]
      simp only [hkey, hv, beq_self_eq_true, if_true, Option.some.injEq] at h
      rw [← h]
      exact RuleMap.keys_set_of_mem _ _ _ (hk value htag)
  · have hb : (metadata.Key == "gce-sleep-group") = false := by simpa using hkey
    simp only [hb, Bool.false_eq_true, if_false, Option.some.injEq] at h
    rw [h]

theorem foldlM_groupMetadata_keys (d : Discovered) (items : List MetadataItems)
    (m m' : RuleMap) (h : items.foldlM (groupMetadata d) m = some m')
    (hk : ∀ t ∈ items.filterMap MetadataItems.tag, t ∈ RuleMap.keys m) :
    RuleMap.keys m' = RuleMap.keys m := by
  induction items generalizing m with
  | nil =>
    simp only [List.foldlM_nil, pure, Option.some.injEq] at h
    rw [h]
  | cons metadata rest ih =>
    rw [List.foldlM_cons] at h
    cases h1 : groupMetadata d m metadata with
    | none => simp [h1] at h
    | some m1 =>
      rw [h1] at h
      have hk1 : RuleMap.keys m1 = RuleMap.keys m := by
        apply groupMetadata_keys d m m1 metadata h1
        intro t ht
        apply hk
        rw [List.mem_filterMap]
        exact ⟨metadata, List.mem_cons_self _ _, ht⟩
      rw [← hk1]
      apply ih m1 h
      intro t ht
      rw [hk1]
      apply hk
      rw [List.mem_filterMap] at ht ⊢
      obtain ⟨a, ha, hta⟩ := ht
      exact ⟨a, List.mem_cons_of_mem _ ha, hta⟩

theorem groupInstances_keys (ds : List Discovered) (m m' : RuleMap)
    (h : groupInstances m ds = some m')
    (hk : ∀ d ∈ ds, ∀ t ∈ d.tags, t ∈ RuleMap.keys m) :
    RuleMap.keys m' = RuleMap.keys m := by
  unfold groupInstances at h
  induction ds generalizing m with
  | nil =>
    simp only [List.foldlM_nil, pure, Option.some.injEq] at h
    rw [h]
  | cons d rest ih =>
    rw [List.foldlM_cons] at h
    cases h1 : groupInstance m d with
    | none => simp [h1] at h
    | some m1 =>
      rw [h1] at h
      unfold groupInstance at h1
      cases hm : d.Metadata with
      | none => simp [hm] at h1
      | some items =>
        simp only [hm] at h1
        have htags : d.tags = items.filterMap MetadataItems.tag := by
          simp [Discovered.tags, hm]
        have hk1 : RuleMap.keys m1 = RuleMap.keys m :=
          foldlM_groupMetadata_keys d items m m1 h1
            (fun t ht => hk d (List.mem_cons_self _ _) t (htags ▸ ht))
        rw [← hk1]
        apply ih m1 h
        intro d' hd' t ht
        rw [hk1]
        exact hk d' (List.mem_cons_of_mem _ hd') t ht

/-! ## Lemmas about reconciliation -/

theorem reconcileInstance_running (p : Provider) (desired : Bool) (run : Run)
    (inst : gceInstance) (h : run.outcome = Outcome.running) :
    (reconcileInstance p desired run inst).actions =
        run.actions ++ [plannedAction desired inst] ∧
      ((reconcileInstance p desired run inst).outcome = Outcome.running ∨
        (reconcileInstance p desired run inst).outcome = Outcome.fatal) ∧
      ((plannedAction desired inst = Action.NoOp inst ∨ ∀ hist a, p hist a = true) →
        (reconcileInstance p desired run inst).outcome = Outcome.running) := by
  unfold reconcileInstance plannedAction Run.call
  rw [h]
  cases desired <;> by_cases h1 : inst.Status = "TERMINATED" <;>
    by_cases h2 : inst.Status = "RUNNING" <;>
    simp [h, h1, h2] <;> split <;> simp_all <;> exact ⟨_, _, by assumption⟩

theorem reconcileInstance_stopped (p : Provider) (desired : Bool) (run : Run)
    (inst : gceInstance) (h : run.outcome ≠ Outcome.running) :
    reconcileInstance p desired run inst = run := by
  unfold reconcileInstance
  cases ho : run.outcome <;> simp_all

theorem foldl_reconcileInstance_stopped (p : Provider) (desired : Bool)
    (insts : List gceInstance) (run : Run) (h : run.outcome ≠ Outcome.running) :
    insts.foldl (reconcileInstance p desired) run = run := by
  induction insts with
  | nil => rfl
  | cons inst rest ih => rw [List.foldl_cons, reconcileInstance_stopped p desired run inst h, ih]

theorem foldl_reconcileInstance (p : Provider) (desired : Bool) (insts : List gceInstance)
    (run : Run) (h : run.outcome = Outcome.running) :
    ∃ n, n ≤ insts.length ∧
      (insts.foldl (reconcileInstance p desired) run).actions =
        run.actions ++ (insts.take n).map (plannedAction desired) ∧
      ((insts.foldl (reconcileInstance p desired) run).outcome = Outcome.running →
        n = insts.length) ∧
      (insts.foldl (reconcileInstance p desired) run).outcome ≠ Outcome.panicked ∧
      (((∀ inst ∈ insts, plannedAction desired inst = Action.NoOp inst) ∨
          ∀ hist a, p hist a = true) →
        (insts.foldl (reconcileInstance p desired) run).outcome = Outcome.running) := by
  induction insts generalizing run with
  | nil => exact ⟨0, Nat.le_refl _, by simp, fun _ => rfl, by simp [h], fun _ => h⟩
  | cons inst rest ih =>
    obtain ⟨ha, ho, hok⟩ := reconcileInstance_running p desired run inst h
    rw [List.foldl_cons]
    rcases ho with ho | ho
    · obtain ⟨n, hn, hact, hlen, hpan, hrun⟩ := ih (reconcileInstance p desired run inst) ho
      refine ⟨n + 1, by simpa using hn, ?_, ?_, hpan, ?_⟩
      · rw [hact, ha]
        simp
      · intro hr
        simpa using hlen hr
      · intro hq
        apply hrun
        rcases hq with hq | hq
        · exact Or.inl (fun i hi => hq i (List.mem_cons_of_mem _ hi))
        · exact Or.inr hq
    · have hne : (reconcileInstance p desired run inst).outcome ≠ Outcome.running := by
        rw [ho]; decide
      rw [foldl_reconcileInstance_stopped p desired rest _ hne]
      refine ⟨1, by simp, ?_, ?_, ?_, ?_⟩
      · rw [ha]; simp
      · intro hr; exact absurd hr hne
      · rw [ho]; decide
      · intro hq
        apply hok
        rcases hq with hq | hq
        · exact Or.inl (hq inst (List.mem_cons_self _ _))
        · exact Or.inr hq

theorem reconcileRuleset_stopped (zi : Zoneinfo) (p : Provider) (now : Time) (run : Run)
    (ruleset : configRuleset) (h : run.outcome ≠ Outcome.running) :
    reconcileRuleset zi p now run ruleset = run := by
  unfold reconcileRuleset
  cases ho : run.outcome <;> simp_all

theorem reconcileRuleset_resolved (zi : Zoneinfo) (p : Provider) (now : Time) (run : Run)
    (ruleset : configRuleset) (loc : Location) (h : run.outcome = Outcome.running)
    (htz : ruleset.Timezone = some loc) :
    reconcileRuleset zi p now run ruleset =
      ruleset.Instances.foldl (reconcileInstance p (desiredState zi now ruleset loc)) run := by
  unfold reconcileRuleset
  rw [h, htz]
  rfl

theorem reconcileRuleset_nil_timezone (zi : Zoneinfo) (p : Provider) (now : Time) (run : Run)
    (ruleset : configRuleset) (h : run.outcome = Outcome.running)
    (htz : ruleset.Timezone = none) :
    reconcileRuleset zi p now run ruleset = { run with outcome := Outcome.panicked } := by
  unfold reconcileRuleset
  rw [h, htz]
  rfl

theorem plannedAction_converged (zi : Zoneinfo) (now : Time) (ruleset : configRuleset)
    (loc : Location) (inst : gceInstance) (htz : ruleset.Timezone = some loc)
    (h : converged zi now ruleset inst = true) :
    plannedAction (desiredState zi now ruleset loc) inst = Action.NoOp inst := by
  simp only [converged, htz, beq_iff_eq] at h
  unfold plannedAction
  cases hd : desiredState zi now ruleset loc <;> simp [hd] at h ⊢ <;> simp [h]

theorem reconcileRuleset_actions (zi : Zoneinfo) (p : Provider) (now : Time) (run : Run)
    (ruleset : configRuleset) :
    ∃ planned : List Action,
      (reconcileRuleset zi p now run ruleset).actions = run.actions ++ planned ∧
      (∀ a ∈ planned, ∃ loc, ruleset.Timezone = some loc ∧
        ∃ inst ∈ ruleset.Instances, a = plannedAction (desiredState zi now ruleset loc) inst) ∧
      ((∀ inst ∈ ruleset.Instances, converged zi now ruleset inst = true) →
        run.outcome ≠ Outcome.fatal →
        (reconcileRuleset zi p now run ruleset).outcome ≠ Outcome.fatal) := by
  by_cases h : run.outcome = Outcome.running
  · cases htz : ruleset.Timezone with
    | none =>
      rw [reconcileRuleset_nil_timezone zi p now run ruleset h htz]
      exact ⟨[], by simp, by simp, fun _ _ => by simp⟩
    | some loc =>
      rw [reconcileRuleset_resolved zi p now run ruleset loc h htz]
      obtain ⟨n, _, hact, _, _, hrun⟩ :=
        foldl_reconcileInstance p (desiredState zi now ruleset loc) ruleset.Instances run h
      refine ⟨_, hact, ?_, ?_⟩
      · intro a ha
        obtain ⟨inst, hinst, rfl⟩ := List.mem_map.1 ha
        exact ⟨loc, rfl, inst, List.mem_of_mem_take hinst, rfl⟩
      · intro hc _
        rw [hrun (Or.inl ?_)]
        · decide
        · intro inst hinst
          exact plannedAction_converged zi now ruleset loc inst htz (hc inst hinst)
  · rw [reconcileRuleset_stopped zi p now run ruleset h]
    exact ⟨[], by simp, by simp, fun _ hf => hf⟩

theorem foldl_reconcileRuleset_actions (zi : Zoneinfo) (p : Provider) (now : Time)
    (activeRules : RuleMap) (run : Run) :
    ∃ planned : List Action,
      (activeRules.foldl (fun run kv => reconcileRuleset zi p now run kv.2) run).actions =
        run.actions ++ planned ∧
      (∀ a ∈ planned, ∃ kv ∈ activeRules, ∃ loc, kv.2.Timezone = some loc ∧
        ∃ inst ∈ kv.2.Instances, a = plannedAction (desiredState zi now kv.2 loc) inst) ∧
      ((∀ kv ∈ activeRules, ∀ inst ∈ kv.2.Instances, converged zi now kv.2 inst = true) →
        run.outcome ≠ Outcome.fatal →
        (activeRules.foldl (fun run kv => reconcileRuleset zi p now run kv.2) run).outcome ≠
          Outcome.fatal) := by
  induction activeRules generalizing run with
  | nil => exact ⟨[], by simp, by simp, fun _ hf => hf⟩
  | cons kv rest ih =>
    obtain ⟨pl1, h1, hp1, hf1⟩ := reconcileRuleset_actions zi p now run kv.2
    obtain ⟨pl2, h2, hp2, hf2⟩ := ih (reconcileRuleset zi p now run kv.2)
    rw [List.foldl_cons]
    refine ⟨pl1 ++ pl2, by rw [h2, h1, List.append_assoc], ?_, ?_⟩
    · intro a ha
      rcases List.mem_append.1 ha with ha | ha
      · obtain ⟨loc, hl, inst, hi, rfl⟩ := hp1 a ha
        exact ⟨kv, List.mem_cons_self _ _, loc, hl, inst, hi, rfl⟩
      · obtain ⟨kv', hkv', rest'⟩ := hp2 a ha
        exact ⟨kv', List.mem_cons_of_mem _ hkv', rest'⟩
    · intro hc hf
      exact hf2 (fun kv' hkv' => hc kv' (List.mem_cons_of_mem _ hkv'))
        (hf1 (hc kv (List.mem_cons_self _ _)) hf)

/-! ## Claims about grouping -/

/-- C5 as stated fails, in four ways. A listed instance with no "gce-sleep-group" entry is held
in no group after grouping, and the program keeps no other list for it. An instance tagged
with a group that no schedule defines is held in a group of the map, under a key that is not
a compiled schedule. An instance that carries the entry of its group twice is held twice. An
instance that carries the entries of two groups is held in both. -/
theorem groupInstances_not_partition :
    (groupInstances officeRules [untaggedVm] = some officeRules ∧
      placements officeRules untaggedVm.toInstance = 0) ∧
    ((groupInstances officeRules [ghostVm]).map
        (fun grouped => (RuleMap.get grouped "ghost").Instances) = some [ghostVm.toInstance] ∧
      "ghost" ∉ RuleMap.keys officeRules) ∧
    (groupInstances officeRules [twiceTaggedVm]).map
        (fun grouped => (RuleMap.get grouped "office").Instances) =
      some [twiceTaggedVm.toInstance, twiceTaggedVm.toInstance] ∧
    (groupInstances twoRules [twoGroupVm]).map
        (fun grouped =>
          ((RuleMap.get grouped "office").Instances, (RuleMap.get grouped "lab").Instances)) =
      some ([twoGroupVm.toInstance], [twoGroupVm.toInstance]) := by
  decide

/-- C5, amended: for every map of compiled schedules and every list of listed instances, none
with a nil metadata pointer, grouping completes and the following hold. Every compiled
schedule keeps its key, and its group is its ruleset with exactly the listed instances that
carry a "gce-sleep-group" entry naming it appended, in the order they were listed, once for
each such entry. An instance is held in a group only if it was held there before or carries
an entry naming that group, so an instance with no entry is added to no group. An instance
all of whose entries name compiled schedules is held, over the whole map, once more for each
entry it carries: exactly once when it is listed once with one entry, not at all when it has
no entry. When every entry names a compiled schedule, the keys of the map are unchanged. -/
theorem groupInstances_groups (activeRules : RuleMap) (ds : List Discovered)
    (hwf : ∀ d ∈ ds, d.wellFormed = true) :
    ∃ grouped, groupInstances activeRules ds = some grouped ∧
      (∀ k ∈ RuleMap.keys activeRules,
        k ∈ RuleMap.keys grouped ∧
        RuleMap.get grouped k =
          { RuleMap.get activeRules k with
            Instances := (RuleMap.get activeRules k).Instances ++ members k ds }) ∧
      (∀ kv ∈ grouped, ∀ inst ∈ kv.2.Instances,
        (∃ kv0 ∈ activeRules, kv0.1 = kv.1 ∧ inst ∈ kv0.2.Instances) ∨
          (∃ d ∈ ds, kv.1 ∈ d.tags ∧ d.toInstance = inst)) ∧
      (∀ inst : gceInstance,
        (∀ d ∈ ds, d.toInstance = inst → ∀ t ∈ d.tags, t ∈ RuleMap.keys activeRules) →
        placements grouped inst =
          placements activeRules inst +
            ((ds.filter (fun d => d.toInstance == inst)).map (fun d => d.tags.length)).sum) ∧
      ((∀ d ∈ ds, ∀ t ∈ d.tags, t ∈ RuleMap.keys activeRules) →
        RuleMap.keys grouped = RuleMap.keys activeRules) := by
  obtain ⟨grouped, h1, h2, h3⟩ := groupInstances_spec ds activeRules hwf
  obtain ⟨hs, hp⟩ := groupInstances_sound ds activeRules grouped h1
  exact ⟨grouped, h1, fun k hk => ⟨h3 k hk, h2 k⟩, hs, fun inst _ => hp inst,
    groupInstances_keys ds activeRules grouped h1⟩

/-- Example for C5: of two tagged instances listed around an untagged one, the group "office"
holds the two tagged ones in the order they were listed, each is held once over the whole
map, the untagged one is held nowhere, and the map keeps its one key. -/
theorem groupInstances_groups_witness :
    (∀ d ∈ officeListing, d.wellFormed = true) ∧
    ∃ grouped, groupInstances officeRules officeListing = some grouped ∧
      (RuleMap.get grouped "office").Instances = [vm "vm-a" "RUNNING", vm "vm-b" "TERMINATED"] ∧
      placements grouped (vm "vm-a" "RUNNING") = 1 ∧
      placements grouped (vm "vm-b" "TERMINATED") = 1 ∧
      placements grouped untaggedVm.toInstance = 0 ∧
      RuleMap.keys grouped = ["office"] := by
  refine ⟨by decide, ?_⟩
  obtain ⟨grouped, hg, hA, _, hC, hD⟩ :=
    groupInstances_groups officeRules officeListing (by decide)
  refine ⟨grouped, hg, ?_, ?_, ?_, ?_, ?_⟩
  · rw [(hA "office" (by decide)).2]
    decide
  · rw [hC (vm "vm-a" "RUNNING") (by decide)]
    decide
  · rw [hC (vm "vm-b" "TERMINATED") (by decide)]
    decide
  · rw [hC untaggedVm.toInstance (by decide)]
    decide
  · rw [hD (by decide)]
    decide

/-- C6 fails on the code: an instance tagged with the unknown group "ghost" is not set aside.
The map gains the key "ghost" with a zero-value ruleset holding the instance, so the keys are
no longer those of the compiled schedules, and the reconciliation loop panics on the nil
timezone of that ruleset, in whichever order it visits the two groups. -/
theorem groupInstances_unknown_group :
    compileRules bareZoneinfo [("office", officeHours)] [] = some officeRules ∧
    groupInstances officeRules [ghostVm] =
      some (officeRules ++ [("ghost", configRuleset.zero.addInstances [ghostVm.toInstance])]) ∧
    RuleMap.keys (officeRules ++ [("ghost", configRuleset.zero.addInstances [ghostVm.toInstance])])
      = ["office", "ghost"] ∧
    RuleMap.keys officeRules = ["office"] ∧
    ∀ (p : Provider) (now : Time),
      (reconcile bareZoneinfo p now
        (officeRules ++ [("ghost", configRuleset.zero.addInstances [ghostVm.toInstance])])).outcome
        = Outcome.panicked ∧
      (reconcile bareZoneinfo p now
        ([("ghost", configRuleset.zero.addInstances [ghostVm.toInstance])] ++ officeRules)).outcome
        = Outcome.panicked := by
  refine ⟨by decide, by decide, by decide, by decide, ?_⟩
  intro p now
  exact ⟨rfl, rfl⟩

/-! ## Claims about reconciliation -/

/-- C2: the reconciliation loop chooses the action of an instance from the desired state of
its group and the status of the instance alone. It starts an instance when the group should
run and the status is "TERMINATED", stops it when the group should not run and the status is
"RUNNING", and does nothing in every other case, in particular for every status other than
those two. The actions of a group are these choices for its instances in order, up to a
failed provider call: all of them when the run still stands after the group, as it does when
no call fails. -/
theorem reconcile_action_table (zi : Zoneinfo) (p : Provider) (now : Time) (run : Run)
    (ruleset : configRuleset) (loc : Location)
    (hrun : run.outcome = Outcome.running) (htz : ruleset.Timezone = some loc) :
    (∃ n, n ≤ ruleset.Instances.length ∧
      (reconcileRuleset zi p now run ruleset).actions =
        run.actions ++
          (ruleset.Instances.take n).map (plannedAction (desiredState zi now ruleset loc)) ∧
      ((reconcileRuleset zi p now run ruleset).outcome = Outcome.running →
        n = ruleset.Instances.length)) ∧
    ((∀ hist a, p hist a = true) →
      (reconcileRuleset zi p now run ruleset).actions =
        run.actions ++
          ruleset.Instances.map (plannedAction (desiredState zi now ruleset loc))) ∧
    (∀ (desired : Bool) (inst : gceInstance),
      (desired = true → inst.Status = "TERMINATED" →
        (reconcileInstance p desired run inst).actions = run.actions ++ [Action.Start inst]) ∧
      (desired = false → inst.Status = "RUNNING" →
        (reconcileInstance p desired run inst).actions = run.actions ++ [Action.Stop inst]) ∧
      (¬ (desired = true ∧ inst.Status = "TERMINATED") →
        ¬ (desired = false ∧ inst.Status = "RUNNING") →
        (reconcileInstance p desired run inst).actions = run.actions ++ [Action.NoOp inst]) ∧
      (inst.Status ≠ "RUNNING" → inst.Status ≠ "TERMINATED" →
        (reconcileInstance p desired run inst).actions = run.actions ++ [Action.NoOp inst])) := by
  rw [reconcileRuleset_resolved zi p now run ruleset loc hrun htz]
  obtain ⟨n, hn, hact, hlen, _, hok⟩ :=
    foldl_reconcileInstance p (desiredState zi now ruleset loc) ruleset.Instances run hrun
  refine ⟨⟨n, hn, hact, hlen⟩, ?_, ?_⟩
  · intro hp
    have := hlen (hok (Or.inr hp))
    rw [hact, this, List.take_length]
  · intro desired inst
    have h := (reconcileInstance_running p desired run inst hrun).1
    rw [h]
    unfold plannedAction
    refine ⟨?_, ?_, ?_, ?_⟩
    · intro h1 h2; simp [h1, h2]
    · intro h1 h2; simp [h1, h2]
    · intro h1 h2; simp [h1, h2]
    · intro h1 h2; simp [h1, h2]

/-- Example for C2: at 10:00 the group "office" leaves its running instance alone, starts
its terminated instance and leaves the instance in state "STOPPING" alone. -/
theorem reconcile_action_table_witness :
    (reconcileRuleset bareZoneinfo alwaysOk mondayTen ⟨[], Outcome.running⟩
      (officeGroup [vm "vm-a" "RUNNING", vm "vm-b" "TERMINATED", vm "vm-c" "STOPPING"])).actions =
      [Action.NoOp (vm "vm-a" "RUNNING"), Action.Start (vm "vm-b" "TERMINATED"),
        Action.NoOp (vm "vm-c" "STOPPING")] :=
  ((reconcile_action_table bareZoneinfo alwaysOk mondayTen ⟨[], Outcome.running⟩
    (officeGroup [vm "vm-a" "RUNNING", vm "vm-b" "TERMINATED", vm "vm-c" "STOPPING"]) UTC
    rfl (by decide)).2.1 (fun _ _ => rfl)).trans (by decide)

/-- C7: when the status of every instance already matches the desired state of its group
("RUNNING" where `shouldBeRunning` is true, "TERMINATED" where it is false), every action of
the reconciliation loop is a no-op: no start and no stop is issued, and so no provider call
can end the run. -/
theorem reconcile_converged (zi : Zoneinfo) (p : Provider) (now : Time)
    (activeRules : RuleMap)
    (h : ∀ kv ∈ activeRules, ∀ inst ∈ kv.2.Instances, converged zi now kv.2 inst = true) :
    (∀ a ∈ (reconcile zi p now activeRules).actions, ∃ inst, a = Action.NoOp inst) ∧
    (∀ inst, Action.Start inst ∉ (reconcile zi p now activeRules).actions ∧
      Action.Stop inst ∉ (reconcile zi p now activeRules).actions) ∧
    (reconcile zi p now activeRules).outcome ≠ Outcome.fatal := by
  obtain ⟨planned, hact, hpl, hf⟩ :=
    foldl_reconcileRuleset_actions zi p now activeRules ⟨[], Outcome.running⟩
  have hall : ∀ a ∈ (reconcile zi p now activeRules).actions, ∃ inst, a = Action.NoOp inst := by
    intro a ha
    unfold reconcile at ha
    rw [hact] at ha
    obtain ⟨kv, hkv, loc, htz, inst, hinst, rfl⟩ := hpl a (by simpa using ha)
    exact ⟨inst, plannedAction_converged zi now kv.2 loc inst htz (h kv hkv inst hinst)⟩
  refine ⟨hall, ?_, hf h (by decide)⟩
  intro inst
  constructor
  · intro hmem
    obtain ⟨i, hi⟩ := hall _ hmem
    cases hi
  · intro hmem
    obtain ⟨i, hi⟩ := hall _ hmem
    cases hi

/-- Example for C7: at 10:00 a running instance of the group "office" is left alone by every
provider. -/
theorem reconcile_converged_witness :
    (∀ kv ∈ [("office", officeGroup [vm "vm-a" "RUNNING"])], ∀ inst ∈ kv.2.Instances,
      converged bareZoneinfo mondayTen kv.2 inst = true) ∧
    ∀ p : Provider, ∀ a ∈ (reconcile bareZoneinfo p mondayTen
      [("office", officeGroup [vm "vm-a" "RUNNING"])]).actions, ∃ inst, a = Action.NoOp inst :=
  ⟨by decide, fun p =>
    (reconcile_converged bareZoneinfo p mondayTen
      [("office", officeGroup [vm "vm-a" "RUNNING"])] (by decide)).1⟩

/-- C8: the result of `shouldBeRunning` depends only on the hour and minute of its three
times. Two calls whose times agree in hour and minute agree in result, whatever their years,
months, days, seconds, nanoseconds and locations; in particular changing only the date of
`now` does not change the result. -/
theorem shouldBeRunning_clock_only (now now' startTime startTime' stopTime stopTime' : Time)
    (hnh : now.Hour = now'.Hour) (hnm : now.Minute = now'.Minute)
    (hsh : startTime.Hour = startTime'.Hour) (hsm : startTime.Minute = startTime'.Minute)
    (heh : stopTime.Hour = stopTime'.Hour) (hem : stopTime.Minute = stopTime'.Minute) :
    shouldBeRunning now startTime stopTime = shouldBeRunning now' startTime' stopTime' ∧
    ∀ (year : Int) (month day : Nat),
      shouldBeRunning { now with year := year, month := month, day := day } startTime stopTime =
        shouldBeRunning now startTime stopTime := by
  constructor
  · unfold shouldBeRunning
    rw [hnh, hnm, hsh, hsm, heh, hem]
  · intro year month day
    rfl

/-- Example for C8: 10:00 on 2024-01-01 and 10:00:37 on 2031-07-19 in another zone give the
same result against the office hours. -/
theorem shouldBeRunning_clock_only_witness :
    shouldBeRunning mondayTen (clockTime 9 0 UTC) (clockTime 17 0 UTC) =
      shouldBeRunning
        { year := 2031, month := 7, day := 19, hour := 10, minute := 0, second := 37,
          nsec := 500, loc := some ⟨"Europe/London"⟩ }
        (clockTime 9 0 UTC) (clockTime 17 0 UTC) :=
  (shouldBeRunning_clock_only mondayTen _ (clockTime 9 0 UTC) (clockTime 9 0 UTC)
    (clockTime 17 0 UTC) (clockTime 17 0 UTC) rfl rfl rfl rfl rfl rfl).1

/-- C10: a window whose start is strictly after its stop, in minutes of the day, never runs:
`shouldBeRunning` is false at every `now`, so the reconciliation of a group with such a
window issues no start, whatever the statuses of its instances. -/
theorem shouldBeRunning_inverted_window (startTime stopTime : Time)
    (h : 60 * startTime.Hour + startTime.Minute > 60 * stopTime.Hour + stopTime.Minute) :
    (∀ now : Time, shouldBeRunning now startTime stopTime = false) ∧
    ∀ (zi : Zoneinfo) (p : Provider) (now : Time) (run : Run) (ruleset : configRuleset),
      ruleset.StartTime = startTime → ruleset.StopTime = stopTime →
      ∀ inst, Action.Start inst ∈ (reconcileRuleset zi p now run ruleset).actions →
        Action.Start inst ∈ run.actions := by
  have hfalse : ∀ now : Time, shouldBeRunning now startTime stopTime = false := by
    intro now
    have hs := startTime.Minute_le
    have hn := now.Minute_le
    rw [← Bool.not_eq_true, shouldBeRunning_eq_true_iff]
    rintro ⟨h1, h2, h3, h4⟩
    rcases Nat.lt_or_ge startTime.Hour stopTime.Hour with hlt | hge
    · omega
    · have e1 : startTime.Hour = now.Hour := by omega
      have e2 : stopTime.Hour = now.Hour := by omega
      have := h3 e1
      have := h4 e2
      omega
  refine ⟨hfalse, ?_⟩
  intro zi p now run ruleset hs he inst hmem
  obtain ⟨planned, hact, hpl, _⟩ := reconcileRuleset_actions zi p now run ruleset
  rw [hact] at hmem
  rcases List.mem_append.1 hmem with hmem | hmem
  · exact hmem
  · obtain ⟨loc, _, i, _, hi⟩ := hpl _ hmem
    have hd : desiredState zi now ruleset loc = false := by
      unfold desiredState
      rw [hs, he]
      exact hfalse _
    rw [hd] at hi
    unfold plannedAction at hi
    split at hi
    · simp_all
    · split at hi <;> cases hi

/-- Example for C10: the window from 22:00 to 06:00 is not running at 23:00. -/
theorem shouldBeRunning_inverted_window_witness :
    shouldBeRunning (clockTime 23 0 UTC) (clockTime 22 0 UTC) (clockTime 6 0 UTC) = false :=
  (shouldBeRunning_inverted_window (clockTime 22 0 UTC) (clockTime 6 0 UTC) (by decide)).1
    (clockTime 23 0 UTC)

end GceSleep
